import Mathlib

/-!
Verification of the data-structure optimization toolkit of the repository
python-optimisation-skills.  Each Python function or class that the claims
mention is shallowly embedded as an executable Lean definition below, and
the claimed properties are proved about these definitions.

Python sets are modelled as Finset, Python dicts as insertion-ordered
association lists over String keys mirroring CPython update-in-place
semantics, and slotted classes as fixed-field structures with explicit
string-keyed attribute access returning Except.
-/

namespace PyOpt

/-! ## Example 01: membership testing (src/examples/01_membership_testing.py) -/

/-- The hardcoded local list of valid user ids in validate_user_slow. -/
def valid_users_list : List Int :=
  [100, 200, 300, 400, 500, 600, 700, 800, 900, 1000]

/-- The hardcoded local set of valid user ids in validate_user_fast. -/
def valid_users_set : Finset Int :=
  {100, 200, 300, 400, 500, 600, 700, 800, 900, 1000}

/-- validate_user_slow: membership test against the hardcoded local list.
The valid_users parameter is accepted (of arbitrary type, Python is untyped)
and never used, exactly as in the source. -/
def validate_user_slow {β : Type} (user_id : Int) (valid_users : β) : Bool :=
  if user_id ∈ valid_users_list then true else false

/-- validate_user_fast: membership test against the hardcoded local set.
The valid_users parameter is accepted and never used, as in the source. -/
def validate_user_fast {β : Type} (user_id : Int) (valid_users : β) : Bool :=
  if user_id ∈ valid_users_set then true else false

/-- RateLimiterFast: blocked_ips is a Python set of ip strings. -/
structure RateLimiterFast where
  blocked_ips : Finset String
deriving DecidableEq

/-- RateLimiterFast.__init__: starts with an empty set. -/
def RateLimiterFast.init : RateLimiterFast := ⟨∅⟩

/-- RateLimiterFast.is_blocked: set membership. -/
def RateLimiterFast.is_blocked (r : RateLimiterFast) (ip_address : String) : Bool :=
  decide (ip_address ∈ r.blocked_ips)

/-- RateLimiterFast.block_ip: set add. -/
def RateLimiterFast.block_ip (r : RateLimiterFast) (ip_address : String) : RateLimiterFast :=
  ⟨insert ip_address r.blocked_ips⟩

/-- Running a whole sequence of block_ip calls from a fresh rate limiter. -/
def RateLimiterFast.applyBlocks (ops : List String) : RateLimiterFast :=
  ops.foldl RateLimiterFast.block_ip RateLimiterFast.init

/-! ## A model of CPython dict over String keys

Used by count_words_fast, analyze_logs_fast and ComputationCacheFast.
An insertion-ordered association list without duplicate keys is exactly the
observable behaviour of a dict: assignment to an existing key updates it in
place, assignment to a fresh key appends it. -/

/-- d[key] lookup returning an Option, i.e. dict.get with default None. -/
def dictGet {α : Type} (d : List (String × α)) (key : String) : Option α :=
  match d with
  | [] => none
  | (k, v) :: rest => if k = key then some v else dictGet rest key

/-- d[key] = value: update in place if the key is present, else append. -/
def dictSet {α : Type} (d : List (String × α)) (key : String) (value : α) :
    List (String × α) :=
  match d with
  | [] => [(key, value)]
  | (k, v) :: rest =>
    if k = key then (key, value) :: rest else (k, v) :: dictSet rest key value

/-! ## Example 02: counting and grouping (src/examples/02_counting_and_grouping.py) -/

/-- count_words_fast: counts[word] = counts.get(word, 0) + 1 over the input. -/
def count_words_fast (words : List String) : List (String × Nat) :=
  words.foldl (fun counts word => dictSet counts word ((dictGet counts word).getD 0 + 1)) []

/-- A log entry: the source accesses only the level field of each entry dict;
the rest of the entry is kept opaque as a message string. -/
structure LogEntry where
  level : String
  message : String
deriving DecidableEq

/-- analyze_logs_fast: defaultdict(list); grouped[entry.level].append(entry).
Appending to the default [] on a missing key is exactly getD []. -/
def analyze_logs_fast (log_entries : List LogEntry) : List (String × List LogEntry) :=
  log_entries.foldl
    (fun grouped entry =>
      dictSet grouped entry.level ((dictGet grouped entry.level).getD [] ++ [entry]))
    []

/-! ## Example 03: slotted records (src/examples/03_slots_optimization.py) -/

/-- The schema-mismatch failure raised when a constructor receives the wrong
number of field values (a TypeError in CPython, the SchemaError of the spec). -/
inductive SchemaError where
  | wrongFieldCount (expected got : Nat)
deriving DecidableEq

/-- The AttributeError-class signal raised on access to an undeclared slot. -/
inductive AttrError where
  | undeclared (name : String)
deriving DecidableEq

/-- PointOptimized: a slotted class with fields x, y, z.  Field values are
kept at an arbitrary type α since the claims treat them opaquely. -/
structure PointOptimized (α : Type) where
  x : α
  y : α
  z : α
deriving DecidableEq

/-- The declared slot names of PointOptimized, in declaration order. -/
def PointOptimized.slots : List String := ["x", "y", "z"]

/-- Constructing a PointOptimized from a list of positional argument values:
succeeds only on exactly three values, else fails with the schema error. -/
def PointOptimized.init {α : Type} (args : List α) :
    Except SchemaError (PointOptimized α) :=
  match args with
  | [x, y, z] => .ok ⟨x, y, z⟩
  | _ => .error (.wrongFieldCount 3 args.length)

/-- Reading an attribute of a PointOptimized by name: only the declared
slots exist, any other name fails with the AttributeError-class signal. -/
def PointOptimized.getattr {α : Type} (p : PointOptimized α) (name : String) :
    Except AttrError α :=
  if name = "x" then .ok p.x
  else if name = "y" then .ok p.y
  else if name = "z" then .ok p.z
  else .error (.undeclared name)

/-- Setting an attribute of a PointOptimized by name: assignment to any name
outside the declared slots fails and leaves no trace on the instance. -/
def PointOptimized.setattr {α : Type} (p : PointOptimized α) (name : String) (v : α) :
    Except AttrError (PointOptimized α) :=
  if name = "x" then .ok ⟨v, p.y, p.z⟩
  else if name = "y" then .ok ⟨p.x, v, p.z⟩
  else if name = "z" then .ok ⟨p.x, p.y, v⟩
  else .error (.undeclared name)

/-- SensorReadingOptimized: a slotted class with five declared fields. -/
structure SensorReadingOptimized (α : Type) where
  timestamp : α
  temperature : α
  humidity : α
  pressure : α
  sensor_id : α
deriving DecidableEq

/-- The declared slot names of SensorReadingOptimized, in declaration order. -/
def SensorReadingOptimized.slots : List String :=
  ["timestamp", "temperature", "humidity", "pressure", "sensor_id"]

/-- Constructing a SensorReadingOptimized from positional argument values:
succeeds only on exactly five values, else fails with the schema error. -/
def SensorReadingOptimized.init {α : Type} (args : List α) :
    Except SchemaError (SensorReadingOptimized α) :=
  match args with
  | [t, te, h, p, s] => .ok ⟨t, te, h, p, s⟩
  | _ => .error (.wrongFieldCount 5 args.length)

/-- Reading an attribute of a SensorReadingOptimized by name. -/
def SensorReadingOptimized.getattr {α : Type} (r : SensorReadingOptimized α)
    (name : String) : Except AttrError α :=
  if name = "timestamp" then .ok r.timestamp
  else if name = "temperature" then .ok r.temperature
  else if name = "humidity" then .ok r.humidity
  else if name = "pressure" then .ok r.pressure
  else if name = "sensor_id" then .ok r.sensor_id
  else .error (.undeclared name)

/-- Setting an attribute of a SensorReadingOptimized by name. -/
def SensorReadingOptimized.setattr {α : Type} (r : SensorReadingOptimized α)
    (name : String) (v : α) : Except AttrError (SensorReadingOptimized α) :=
  if name = "timestamp" then .ok ⟨v, r.temperature, r.humidity, r.pressure, r.sensor_id⟩
  else if name = "temperature" then .ok ⟨r.timestamp, v, r.humidity, r.pressure, r.sensor_id⟩
  else if name = "humidity" then .ok ⟨r.timestamp, r.temperature, v, r.pressure, r.sensor_id⟩
  else if name = "pressure" then .ok ⟨r.timestamp, r.temperature, r.humidity, v, r.sensor_id⟩
  else if name = "sensor_id" then .ok ⟨r.timestamp, r.temperature, r.humidity, r.pressure, v⟩
  else .error (.undeclared name)

/-! ## Example 04: container selection (src/examples/04_container_selection.py) -/

/-- The loop of remove_duplicates_fast: seen is the Python set, unique the
accumulating output list; an item is emitted the first time it is seen. -/
def dedupeLoop (seen : Finset Int) (unique : List Int) : List Int → List Int
  | [] => unique
  | item :: rest =>
    if item ∈ seen then dedupeLoop seen unique rest
    else dedupeLoop (insert item seen) (unique ++ [item]) rest

/-- remove_duplicates_fast: order-preserving dedup with a seen-set. -/
def remove_duplicates_fast (items : List Int) : List Int :=
  dedupeLoop ∅ [] items

/-- remove_duplicates_simple: just set(items). -/
def remove_duplicates_simple (items : List Int) : Finset Int :=
  items.toFinset

/-- Modelled from the spec: the first-seen order deduplication it describes.
Each distinct item is emitted at its first occurrence, in original order:
the head is kept and every later occurrence of it is discarded before
deduplicating the remainder.  Used to compare remove_duplicates_fast with
the specified behaviour. -/
def firstSeenDedup : List Int → List Int
  | [] => []
  | x :: rest => x :: firstSeenDedup (rest.filter (fun y => y ≠ x))
termination_by l => l.length
decreasing_by
  simp only [List.length_cons]
  exact Nat.lt_succ_of_le (List.length_filter_le _ _)

/-- ArticleFast: tags are converted to a set at construction. -/
structure ArticleFast where
  title : String
  tags : Finset String
deriving DecidableEq

/-- ArticleFast.__init__: self.tags = set(tags). -/
def ArticleFast.init (title : String) (tags : List String) : ArticleFast :=
  ⟨title, tags.toFinset⟩

/-- ArticleFast.has_tag: set membership. -/
def ArticleFast.has_tag (a : ArticleFast) (tag : String) : Bool :=
  decide (tag ∈ a.tags)

/-- ArticleFast.has_any_tags: bool(self.tags & set(search_tags)), i.e.
nonemptiness of the set intersection. -/
def ArticleFast.has_any_tags (a : ArticleFast) (search_tags : List String) : Bool :=
  decide (a.tags ∩ search_tags.toFinset).Nonempty

/-- ComputationCacheFast: an unbounded dict-backed cache. -/
structure ComputationCacheFast (α : Type) where
  cache : List (String × α)
deriving DecidableEq

/-- ComputationCacheFast.__init__: empty dict. -/
def ComputationCacheFast.init {α : Type} : ComputationCacheFast α := ⟨[]⟩

/-- ComputationCacheFast.get: dict.get, returning none (Python None) on a
miss and never failing. -/
def ComputationCacheFast.get {α : Type} (c : ComputationCacheFast α) (key : String) :
    Option α :=
  dictGet c.cache key

/-- ComputationCacheFast.set: plain dict assignment. -/
def ComputationCacheFast.set {α : Type} (c : ComputationCacheFast α) (key : String)
    (value : α) : ComputationCacheFast α :=
  ⟨dictSet c.cache key value⟩

/-- Running a whole sequence of set operations from a fresh cache. -/
def ComputationCacheFast.applySets {α : Type} (ops : List (String × α)) :
    ComputationCacheFast α :=
  ops.foldl (fun c p => c.set p.1 p.2) ComputationCacheFast.init

/-! ## Generic lemmas about the dict model -/

lemma dictGet_dictSet {α : Type} (d : List (String × α)) (k key : String) (v : α) :
    dictGet (dictSet d k v) key = if k = key then some v else dictGet d key := by
  induction d with
  | nil => by_cases h : k = key <;> simp [dictSet, dictGet, h]
  | cons hd tl ih =>
    obtain ⟨k0, v0⟩ := hd
    by_cases h0 : k0 = k
    · subst h0
      by_cases h : k0 = key <;> simp [dictSet, dictGet, h]
    · by_cases h : k0 = key
      · subst h
        have hk : ¬k = k0 := fun he => h0 he.symm
        simp [dictSet, dictGet, h0, hk]
      · simp [dictSet, dictGet, h0, h, ih]

/-! ## Theorems for the claims -/

/-- Claim C1: constructing a CompactRecord (PointOptimized or
SensorReadingOptimized) with a wrong number of field values fails with a
SchemaError, and constructing with the correct number succeeds with every
declared field readable and equal to the supplied value, for every choice of
argument values. -/
theorem spec_c1 :
    (∀ (α : Type) (args : List α),
        (PointOptimized.init args).isOk = true ↔ args.length = 3) ∧
    (∀ (α : Type) (args : List α), args.length ≠ 3 →
        PointOptimized.init args = .error (.wrongFieldCount 3 args.length)) ∧
    (∀ (α : Type) (a b c : α),
        PointOptimized.init [a, b, c] = .ok ⟨a, b, c⟩ ∧
        (PointOptimized.mk a b c).getattr "x" = .ok a ∧
        (PointOptimized.mk a b c).getattr "y" = .ok b ∧
        (PointOptimized.mk a b c).getattr "z" = .ok c) ∧
    (∀ (α : Type) (args : List α),
        (SensorReadingOptimized.init args).isOk = true ↔ args.length = 5) ∧
    (∀ (α : Type) (args : List α), args.length ≠ 5 →
        SensorReadingOptimized.init args = .error (.wrongFieldCount 5 args.length)) ∧
    (∀ (α : Type) (t te h p s : α),
        SensorReadingOptimized.init [t, te, h, p, s] = .ok ⟨t, te, h, p, s⟩ ∧
        (SensorReadingOptimized.mk t te h p s).getattr "timestamp" = .ok t ∧
        (SensorReadingOptimized.mk t te h p s).getattr "temperature" = .ok te ∧
        (SensorReadingOptimized.mk t te h p s).getattr "humidity" = .ok h ∧
        (SensorReadingOptimized.mk t te h p s).getattr "pressure" = .ok p ∧
        (SensorReadingOptimized.mk t te h p s).getattr "sensor_id" = .ok s) := by
  refine ⟨?_, ?_, ?_, ?_, ?_, ?_⟩
  · intro α args
    rcases args with _ | ⟨a, _ | ⟨b, _ | ⟨c, _ | ⟨d, tl⟩⟩⟩⟩ <;>
      simp [PointOptimized.init, Except.isOk, Except.toBool]
  · intro α args hlen
    rcases args with _ | ⟨a, _ | ⟨b, _ | ⟨c, _ | ⟨d, tl⟩⟩⟩⟩ <;>
      simp_all [PointOptimized.init]
  · intro α a b c
    refine ⟨rfl, ?_, ?_, ?_⟩ <;> simp [PointOptimized.getattr]
  · intro α args
    rcases args with _ | ⟨a, _ | ⟨b, _ | ⟨c, _ | ⟨d, _ | ⟨e, _ | ⟨f, tl⟩⟩⟩⟩⟩⟩ <;>
      simp [SensorReadingOptimized.init, Except.isOk, Except.toBool]
  · intro α args hlen
    rcases args with _ | ⟨a, _ | ⟨b, _ | ⟨c, _ | ⟨d, _ | ⟨e, _ | ⟨f, tl⟩⟩⟩⟩⟩⟩ <;>
      simp_all [SensorReadingOptimized.init]
  · intro α t te h p s
    refine ⟨rfl, ?_, ?_, ?_, ?_, ?_⟩ <;> simp [SensorReadingOptimized.getattr]

/-- Witness for C1 at concrete inputs: a two-value construction of
PointOptimized fails with the schema error, a three-value one succeeds. -/
theorem spec_c1_witness :
    ([(1 : Int), 2].length ≠ 3 ∧
      PointOptimized.init [(1 : Int), 2] = .error (.wrongFieldCount 3 2)) ∧
    ([(1 : Int), 2, 3, 4].length ≠ 5 ∧
      SensorReadingOptimized.init [(1 : Int), 2, 3, 4] =
        .error (.wrongFieldCount 5 4)) :=
  ⟨⟨by decide, spec_c1.2.1 Int [1, 2] (by decide)⟩,
   ⟨by decide, spec_c1.2.2.2.2.1 Int [1, 2, 3, 4] (by decide)⟩⟩

/-- Claim C2: for every instance of a slotted record and every attribute name
outside the declared field set, setting fails with the AttributeError-class
signal, reading fails likewise, and no instance ever exposes an undeclared
attribute: readable attributes are exactly the declared slots. -/
theorem spec_c2 :
    (∀ (α : Type) (p : PointOptimized α) (name : String),
        name ∉ PointOptimized.slots →
          (∀ v, p.setattr name v = .error (.undeclared name)) ∧
          p.getattr name = .error (.undeclared name)) ∧
    (∀ (α : Type) (p : PointOptimized α) (name : String),
        (p.getattr name).isOk = true ↔ name ∈ PointOptimized.slots) ∧
    (∀ (α : Type) (r : SensorReadingOptimized α) (name : String),
        name ∉ SensorReadingOptimized.slots →
          (∀ v, r.setattr name v = .error (.undeclared name)) ∧
          r.getattr name = .error (.undeclared name)) ∧
    (∀ (α : Type) (r : SensorReadingOptimized α) (name : String),
        (r.getattr name).isOk = true ↔ name ∈ SensorReadingOptimized.slots) := by
  refine ⟨?_, ?_, ?_, ?_⟩
  · intro α p name hname
    simp only [PointOptimized.slots, List.mem_cons, List.not_mem_nil, or_false,
      not_or] at hname
    obtain ⟨hx, hy, hz⟩ := hname
    exact ⟨fun v => by simp [PointOptimized.setattr, hx, hy, hz],
      by simp [PointOptimized.getattr, hx, hy, hz]⟩
  · intro α p name
    by_cases hx : name = "x"
    · simp [PointOptimized.getattr, PointOptimized.slots, hx, Except.isOk, Except.toBool]
    · by_cases hy : name = "y"
      · simp [PointOptimized.getattr, PointOptimized.slots, hx, hy, Except.isOk,
          Except.toBool]
      · by_cases hz : name = "z" <;>
          simp [PointOptimized.getattr, PointOptimized.slots, hx, hy, hz, Except.isOk,
            Except.toBool]
  · intro α r name hname
    simp only [SensorReadingOptimized.slots, List.mem_cons, List.not_mem_nil, or_false,
      not_or] at hname
    obtain ⟨h1, h2, h3, h4, h5⟩ := hname
    exact ⟨fun v => by simp [SensorReadingOptimized.setattr, h1, h2, h3, h4, h5],
      by simp [SensorReadingOptimized.getattr, h1, h2, h3, h4, h5]⟩
  · intro α r name
    by_cases h1 : name = "timestamp"
    · simp [SensorReadingOptimized.getattr, SensorReadingOptimized.slots, h1,
        Except.isOk, Except.toBool]
    · by_cases h2 : name = "temperature"
      · simp [SensorReadingOptimized.getattr, SensorReadingOptimized.slots, h1, h2,
          Except.isOk, Except.toBool]
      · by_cases h3 : name = "humidity"
        · simp [SensorReadingOptimized.getattr, SensorReadingOptimized.slots, h1, h2,
            h3, Except.isOk, Except.toBool]
        · by_cases h4 : name = "pressure"
          · simp [SensorReadingOptimized.getattr, SensorReadingOptimized.slots, h1, h2,
              h3, h4, Except.isOk, Except.toBool]
          · by_cases h5 : name = "sensor_id" <;>
              simp [SensorReadingOptimized.getattr, SensorReadingOptimized.slots, h1,
                h2, h3, h4, h5, Except.isOk, Except.toBool]

/-- Witness for C2 at concrete inputs: the undeclared name w is rejected on
write and on read for both record types. -/
theorem spec_c2_witness :
    ("w" ∉ PointOptimized.slots ∧
      (PointOptimized.mk (1 : Int) 2 3).setattr "w" 0 = .error (.undeclared "w") ∧
      (PointOptimized.mk (1 : Int) 2 3).getattr "w" = .error (.undeclared "w")) ∧
    ("w" ∉ SensorReadingOptimized.slots ∧
      (SensorReadingOptimized.mk (1 : Int) 2 3 4 5).setattr "w" 0 =
        .error (.undeclared "w") ∧
      (SensorReadingOptimized.mk (1 : Int) 2 3 4 5).getattr "w" =
        .error (.undeclared "w")) :=
  ⟨⟨by decide, (spec_c2.1 Int (PointOptimized.mk 1 2 3) "w" (by decide)).1 0,
     (spec_c2.1 Int (PointOptimized.mk 1 2 3) "w" (by decide)).2⟩,
   ⟨by decide,
     (spec_c2.2.2.1 Int (SensorReadingOptimized.mk 1 2 3 4 5) "w" (by decide)).1 0,
     (spec_c2.2.2.1 Int (SensorReadingOptimized.mk 1 2 3 4 5) "w" (by decide)).2⟩⟩

/-- Claim C3: the keyed cache misses (returns none, never failing) on any key
never set, including after sets of other keys; after set(k, v) a get(k)
returns v; a subsequent set(k, v2) makes get(k) return v2. -/
theorem spec_c3 :
    (∀ (α : Type) (key : String),
        (ComputationCacheFast.init : ComputationCacheFast α).get key = none) ∧
    (∀ (α : Type) (ops : List (String × α)) (key : String),
        (∀ p ∈ ops, p.1 ≠ key) →
          (ComputationCacheFast.applySets ops).get key = none) ∧
    (∀ (α : Type) (c : ComputationCacheFast α) (key : String) (v : α),
        (c.set key v).get key = some v) ∧
    (∀ (α : Type) (c : ComputationCacheFast α) (key : String) (v v2 : α),
        ((c.set key v).set key v2).get key = some v2) := by
  have hstep : ∀ (α : Type) (ops : List (String × α)) (c : ComputationCacheFast α)
      (key : String), (∀ p ∈ ops, p.1 ≠ key) →
        (ops.foldl (fun c p => c.set p.1 p.2) c).get key = c.get key := by
    intro α ops
    induction ops with
    | nil => intro c key _; rfl
    | cons hd tl ih =>
      intro c key hops
      have hhd : hd.1 ≠ key := hops hd (List.mem_cons_self hd tl)
      have htl : ∀ p ∈ tl, p.1 ≠ key := fun p hp => hops p (List.mem_cons_of_mem hd hp)
      calc (List.foldl (fun c p => c.set p.1 p.2) (c.set hd.1 hd.2) tl).get key
          = (c.set hd.1 hd.2).get key := ih (c.set hd.1 hd.2) key htl
        _ = c.get key := by
            simp [ComputationCacheFast.get, ComputationCacheFast.set,
              dictGet_dictSet, hhd]
  refine ⟨fun α key => rfl, ?_, ?_, ?_⟩
  · intro α ops key hops
    exact hstep α ops ComputationCacheFast.init key hops
  · intro α c key v
    simp [ComputationCacheFast.get, ComputationCacheFast.set, dictGet_dictSet]
  · intro α c key v v2
    simp [ComputationCacheFast.get, ComputationCacheFast.set, dictGet_dictSet]

/-- Witness for C3 at concrete inputs: after setting only key a, key b is
still a miss. -/
theorem spec_c3_witness :
    (∀ p ∈ [(("a" : String), (1 : Int))], p.1 ≠ "b") ∧
    (ComputationCacheFast.applySets [(("a" : String), (1 : Int))]).get "b" = none :=
  ⟨by decide, spec_c3.2.1 Int [("a", 1)] "b" (by decide)⟩

lemma applyBlocks_loop (ops : List String) :
    ∀ (r : RateLimiterFast) (k : String),
      (ops.foldl RateLimiterFast.block_ip r).is_blocked k =
        decide (k ∈ r.blocked_ips ∨ k ∈ ops) := by
  induction ops with
  | nil =>
    intro r k
    simp [RateLimiterFast.is_blocked]
  | cons ip rest ih =>
    intro r k
    rw [List.foldl_cons, ih]
    exact decide_eq_decide.mpr
      (by simp [RateLimiterFast.block_ip, Finset.mem_insert, List.mem_cons]; tauto)

/-- Claim C5: after any sequence of block_ip insertions from a fresh
registry, is_blocked k holds iff k was inserted (the registry has no remove
operation, so no insertion is ever undone); blocking an already blocked key
changes nothing: the registry, its size and every is_blocked answer stay
the same. -/
theorem spec_c5 :
    (∀ (ops : List String) (k : String),
        (RateLimiterFast.applyBlocks ops).is_blocked k = decide (k ∈ ops)) ∧
    (∀ (r : RateLimiterFast) (k : String), r.is_blocked k = true →
        r.block_ip k = r ∧
        (r.block_ip k).blocked_ips.card = r.blocked_ips.card ∧
        ∀ k2, (r.block_ip k).is_blocked k2 = r.is_blocked k2) := by
  constructor
  · intro ops k
    rw [RateLimiterFast.applyBlocks, applyBlocks_loop]
    exact decide_eq_decide.mpr (by simp [RateLimiterFast.init])
  · intro r k h
    have hm : k ∈ r.blocked_ips := of_decide_eq_true h
    have he : r.block_ip k = r := by
      cases r
      simp only [RateLimiterFast.block_ip, RateLimiterFast.mk.injEq]
      exact Finset.insert_eq_self.mpr hm
    exact ⟨he, by rw [he], fun k2 => by rw [he]⟩

/-- Witness for C5 at a concrete input: blocking the already blocked ip a is
a no-op on the registry. -/
theorem spec_c5_witness :
    (RateLimiterFast.applyBlocks ["a"]).is_blocked "a" = true ∧
    (RateLimiterFast.applyBlocks ["a"]).block_ip "a" =
      RateLimiterFast.applyBlocks ["a"] := by
  have h : (RateLimiterFast.applyBlocks ["a"]).is_blocked "a" = true := by decide
  exact ⟨h, (spec_c5.2 (RateLimiterFast.applyBlocks ["a"]) "a" h).1⟩

lemma count_loop_getD (words : List String) :
    ∀ (counts : List (String × Nat)) (w : String),
      (dictGet (words.foldl
          (fun counts word => dictSet counts word ((dictGet counts word).getD 0 + 1))
          counts) w).getD 0
        = (dictGet counts w).getD 0 + words.count w := by
  induction words with
  | nil =>
    intro counts w
    simp
  | cons word rest ih =>
    intro counts w
    rw [List.foldl_cons, ih]
    by_cases h : word = w
    · subst h
      simp [dictGet_dictSet, List.count_cons]
      omega
    · simp [dictGet_dictSet, h, List.count_cons]

lemma count_loop_isSome (words : List String) :
    ∀ (counts : List (String × Nat)) (w : String),
      (dictGet (words.foldl
          (fun counts word => dictSet counts word ((dictGet counts word).getD 0 + 1))
          counts) w).isSome
        = ((dictGet counts w).isSome || decide (w ∈ words)) := by
  induction words with
  | nil =>
    intro counts w
    simp
  | cons word rest ih =>
    intro counts w
    rw [List.foldl_cons, ih]
    by_cases h : word = w
    · subst h
      simp [dictGet_dictSet]
    · have hw : ¬w = word := fun he => h he.symm
      simp [dictGet_dictSet, h, List.mem_cons, hw]

/-- Claim C6: for every input word sequence, count_words_fast maps every word
of the input to its exact number of occurrences, and contains no key that is
absent from the input. -/
theorem spec_c6 (words : List String) (w : String) :
    dictGet (count_words_fast words) w =
      if w ∈ words then some (words.count w) else none := by
  have h1 := count_loop_getD words [] w
  have h2 := count_loop_isSome words [] w
  rw [count_words_fast]
  simp only [dictGet, Option.getD_none, Option.isSome_none, Bool.false_or,
    Nat.zero_add] at h1 h2
  set d := words.foldl
    (fun counts word => dictSet counts word ((dictGet counts word).getD 0 + 1)) []
  rcases ho : dictGet d w with _ | v
  · rw [ho] at h2
    simp only [Option.isSome_none, false_eq_decide_iff] at h2
    rw [if_neg h2]
  · rw [ho] at h1 h2
    simp only [Option.getD_some] at h1
    simp only [Option.isSome_some, true_eq_decide_iff] at h2
    rw [if_pos h2, h1]

lemma group_loop_getD (es : List LogEntry) :
    ∀ (grouped : List (String × List LogEntry)) (g : String),
      (dictGet (es.foldl
          (fun grouped entry =>
            dictSet grouped entry.level ((dictGet grouped entry.level).getD [] ++ [entry]))
          grouped) g).getD []
        = (dictGet grouped g).getD [] ++ es.filter (fun e => decide (e.level = g)) := by
  induction es with
  | nil =>
    intro grouped g
    simp
  | cons entry rest ih =>
    intro grouped g
    rw [List.foldl_cons, ih]
    by_cases h : entry.level = g
    · subst h
      simp [dictGet_dictSet, List.filter_cons]
    · simp [dictGet_dictSet, h, List.filter_cons]

lemma group_loop_isSome (es : List LogEntry) :
    ∀ (grouped : List (String × List LogEntry)) (g : String),
      (dictGet (es.foldl
          (fun grouped entry =>
            dictSet grouped entry.level ((dictGet grouped entry.level).getD [] ++ [entry]))
          grouped) g).isSome
        = ((dictGet grouped g).isSome || decide (∃ e ∈ es, e.level = g)) := by
  induction es with
  | nil =>
    intro grouped g
    simp
  | cons entry rest ih =>
    intro grouped g
    rw [List.foldl_cons, ih]
    by_cases h : entry.level = g
    · simp [dictGet_dictSet, h]
    · simp [dictGet_dictSet, h, List.mem_cons]

/-- Claim C7: for every input sequence of log entries, analyze_logs_fast maps
every occurring severity level to exactly the entries carrying that level, in
input order, and maps no other key; the group appears exactly when a first
entry with that level does. -/
theorem spec_c7 (log_entries : List LogEntry) (g : String) :
    dictGet (analyze_logs_fast log_entries) g =
      if ∃ e ∈ log_entries, e.level = g
      then some (log_entries.filter (fun e => decide (e.level = g)))
      else none := by
  have h1 := group_loop_getD log_entries [] g
  have h2 := group_loop_isSome log_entries [] g
  rw [analyze_logs_fast]
  simp only [dictGet, Option.getD_none, Option.isSome_none, Bool.false_or,
    List.nil_append] at h1 h2
  set d := log_entries.foldl
    (fun grouped entry =>
      dictSet grouped entry.level ((dictGet grouped entry.level).getD [] ++ [entry])) []
  rcases ho : dictGet d g with _ | v
  · rw [ho] at h1 h2
    simp only [Option.isSome_none, false_eq_decide_iff] at h2
    rw [if_neg h2]
  · rw [ho] at h1 h2
    simp only [Option.getD_some] at h1
    simp only [Option.isSome_some, true_eq_decide_iff] at h2
    rw [if_pos h2, h1]

/-- Claim C8: has_any_tags is true exactly when the entity tag set and the
query tags intersect, hence false whenever they are disjoint, and has_tag is
true exactly on the entity tags. -/
theorem spec_c8 :
    (∀ (a : ArticleFast) (search_tags : List String),
        a.has_any_tags search_tags = true ↔
          ∃ t, t ∈ a.tags ∧ t ∈ search_tags) ∧
    (∀ (a : ArticleFast) (search_tags : List String),
        (∀ t ∈ search_tags, t ∉ a.tags) → a.has_any_tags search_tags = false) ∧
    (∀ (a : ArticleFast) (tag : String), a.has_tag tag = true ↔ tag ∈ a.tags) := by
  have hmain : ∀ (a : ArticleFast) (search_tags : List String),
      a.has_any_tags search_tags = true ↔ ∃ t, t ∈ a.tags ∧ t ∈ search_tags := by
    intro a search_tags
    simp [ArticleFast.has_any_tags, Finset.Nonempty, Finset.mem_inter,
      List.mem_toFinset]
  refine ⟨hmain, ?_, ?_⟩
  · intro a search_tags hdisj
    rw [← Bool.not_eq_true, hmain]
    rintro ⟨t, hta, hts⟩
    exact hdisj t hts hta
  · intro a tag
    simp [ArticleFast.has_tag]

/-- Witness for C8 at a concrete input: an article whose tags are disjoint
from the query set gets a false answer from has_any_tags. -/
theorem spec_c8_witness :
    (∀ t ∈ ["b"], t ∉ (ArticleFast.init "t" ["a"]).tags) ∧
    (ArticleFast.init "t" ["a"]).has_any_tags ["b"] = false := by
  have h : ∀ t ∈ ["b"], t ∉ (ArticleFast.init "t" ["a"]).tags := by decide
  exact ⟨h, spec_c8.2.1 (ArticleFast.init "t" ["a"]) ["b"] h⟩

/-- Claim C10: the two validators ignore their valid_users argument entirely
(the result is unchanged under any replacement of it, even across types),
they agree on every input, and the common result is exactly membership of
user_id in the hardcoded set of the source. -/
theorem spec_c10 :
    (∀ (β γ : Type) (user_id : Int) (a : β) (b : γ),
        validate_user_slow user_id a = validate_user_slow user_id b ∧
        validate_user_fast user_id a = validate_user_fast user_id b) ∧
    (∀ (β : Type) (user_id : Int) (vu : β),
        validate_user_slow user_id vu = validate_user_fast user_id vu) ∧
    (∀ (β : Type) (user_id : Int) (vu : β),
        validate_user_fast user_id vu = true ↔ user_id ∈ valid_users_set) := by
  have hset : ∀ user_id : Int,
      user_id ∈ valid_users_list ↔ user_id ∈ valid_users_set := by
    intro user_id
    simp [valid_users_list, valid_users_set, List.mem_cons, Finset.mem_insert]
  refine ⟨fun β γ user_id a b => ⟨rfl, rfl⟩, ?_, ?_⟩
  · intro β user_id vu
    by_cases h : user_id ∈ valid_users_list
    · have hs := (hset user_id).mp h
      simp [validate_user_slow, validate_user_fast, h, hs]
    · have hs : user_id ∉ valid_users_set := fun hs => h ((hset user_id).mpr hs)
      simp [validate_user_slow, validate_user_fast, h, hs]
  · intro β user_id vu
    by_cases h : user_id ∈ valid_users_set <;> simp [validate_user_fast, h]

lemma filter_insert_filter (x : Int) (seen : Finset Int) (l : List Int) :
    l.filter (fun y => decide (y ∉ insert x seen)) =
      (l.filter (fun y => decide (y ∉ seen))).filter (fun y => decide (y ≠ x)) := by
  rw [List.filter_filter]
  apply List.filter_congr
  intro y hy
  by_cases hyx : y = x <;> by_cases hys : y ∈ seen <;>
    simp [Finset.mem_insert, hyx, hys]

lemma dedupeLoop_eq (items : List Int) :
    ∀ (seen : Finset Int) (unique : List Int),
      dedupeLoop seen unique items =
        unique ++ firstSeenDedup (items.filter (fun y => decide (y ∉ seen))) := by
  induction items with
  | nil =>
    intro seen unique
    simp [dedupeLoop, firstSeenDedup]
  | cons item rest ih =>
    intro seen unique
    by_cases h : item ∈ seen
    · rw [dedupeLoop, if_pos h, ih]
      simp [List.filter_cons, h]
    · rw [dedupeLoop, if_neg h, ih, filter_insert_filter]
      simp [List.filter_cons, h, firstSeenDedup]

lemma rdf_eq_firstSeenDedup (items : List Int) :
    remove_duplicates_fast items = firstSeenDedup items := by
  rw [remove_duplicates_fast, dedupeLoop_eq]
  have hfil : items.filter (fun y => decide (y ∉ (∅ : Finset Int))) = items :=
    List.filter_eq_self.mpr (fun a _ => by simp)
  rw [hfil, List.nil_append]

lemma firstSeenDedup_cons (x : Int) (rest : List Int) :
    firstSeenDedup (x :: rest) =
      x :: firstSeenDedup (rest.filter (fun y => decide (y ≠ x))) := by
  simp [firstSeenDedup]

lemma mem_firstSeenDedup (a : Int) (l : List Int) :
    a ∈ firstSeenDedup l ↔ a ∈ l := by
  induction l using firstSeenDedup.induct with
  | case1 => simp [firstSeenDedup]
  | case2 x rest ih =>
    rw [firstSeenDedup_cons, List.mem_cons, ih, List.mem_filter]
    by_cases hax : a = x <;> simp [List.mem_cons, hax]

lemma nodup_firstSeenDedup (l : List Int) : (firstSeenDedup l).Nodup := by
  induction l using firstSeenDedup.induct with
  | case1 => simp [firstSeenDedup]
  | case2 x rest ih =>
    rw [firstSeenDedup_cons]
    refine List.nodup_cons.mpr ⟨?_, ih⟩
    intro hmem
    have hx := (mem_firstSeenDedup x _).mp hmem
    simp [List.mem_filter] at hx

lemma firstSeenDedup_of_nodup (l : List Int) (h : l.Nodup) :
    firstSeenDedup l = l := by
  induction l using firstSeenDedup.induct with
  | case1 => simp [firstSeenDedup]
  | case2 x rest ih =>
    obtain ⟨hx, hrest⟩ := List.nodup_cons.mp h
    have hfil : rest.filter (fun y => decide (y ≠ x)) = rest :=
      List.filter_eq_self.mpr (fun a ha => by
        simp only [decide_eq_true_eq]
        exact fun he => hx (he ▸ ha))
    have hih := ih (by rw [hfil]; exact hrest)
    rw [hfil] at hih
    rw [firstSeenDedup_cons, hfil, hih]

/-- Claim C4: remove_duplicates_fast emits exactly the distinct items of its
input, each at its first occurrence and in original order (it coincides with
the first-seen deduplication firstSeenDedup, is duplicate-free and has
exactly the members of the input); on [3,1,3,2,1] it returns [3,1,2], and
remove_duplicates_simple on the same input returns the set containing 1, 2
and 3. -/
theorem spec_c4 :
    (∀ (items : List Int),
        remove_duplicates_fast items = firstSeenDedup items ∧
        (remove_duplicates_fast items).Nodup ∧
        ∀ a, a ∈ remove_duplicates_fast items ↔ a ∈ items) ∧
    remove_duplicates_fast [3, 1, 3, 2, 1] = [3, 1, 2] ∧
    remove_duplicates_simple [3, 1, 3, 2, 1] = {1, 2, 3} := by
  refine ⟨fun items => ⟨rdf_eq_firstSeenDedup items, ?_, ?_⟩, by decide, by decide⟩
  · rw [rdf_eq_firstSeenDedup]
    exact nodup_firstSeenDedup items
  · intro a
    rw [rdf_eq_firstSeenDedup]
    exact mem_firstSeenDedup a items

/-- Claim C9: remove_duplicates_fast is idempotent: running it on its own
output returns that output unchanged. -/
theorem spec_c9 (items : List Int) :
    remove_duplicates_fast (remove_duplicates_fast items) =
      remove_duplicates_fast items := by
  rw [rdf_eq_firstSeenDedup items, rdf_eq_firstSeenDedup (firstSeenDedup items)]
  exact firstSeenDedup_of_nodup _ (nodup_firstSeenDedup items)

end PyOpt
